import Mathlib

/-!
Shallow embedding of the photo-compositor composition engine (src/app.js):
quality analysis, focal-point resolution, panel geometry, per-format
adjustment state, the render layout, and the drag interaction handlers.
JavaScript numbers are modelled as rationals; the sharpness score, which
can be Infinity (decode failure), as WithTop ℚ.
-/

/- ── Config (app.js 4–15) ── -/

structure OutputFormat where
  label : String
  width : ℕ
  height : ℕ
  suffix : String
deriving DecidableEq

/-- `OUTPUT_FORMATS` from app.js: both formats are always generated. -/
def OUTPUT_FORMATS : List OutputFormat :=
  [⟨"2×1", 2000, 1000, "2x1"⟩, ⟨"4×3", 2000, 1500, "4x3"⟩]

/-- `DIVIDER.width` from app.js (the color plays no geometric role). -/
def DIVIDER_width : ℕ := 12

/- ── Data model ── -/

/-- Normalized focal point `{ x, y, faceFound }`. -/
structure FocalPoint where
  x : ℚ
  y : ℚ
  faceFound : Bool
deriving DecidableEq

/-- Per-(format, panel) adjustment `{ panX, panY, scale }`. -/
structure Adjustment where
  panX : ℚ
  panY : ℚ
  scale : ℚ
deriving DecidableEq

/-- The adjustment created at composition time (app.js 314) and restored by
the per-panel Reset button (app.js 551). -/
def defaultAdjustment : Adjustment := ⟨0, 0, 1⟩

/-- Natural dimensions of a decoded image element. -/
structure ImgSize where
  width : ℚ
  height : ℚ
deriving DecidableEq

/- ── Image quality checks (app.js 46–89, 239–243) ── -/

/-- `getImageSize` (app.js 46–53): decode failure resolves to `{0, 0}`,
success to the natural dimensions. -/
def getImageSize (decoded : Option (ℕ × ℕ)) : ℕ × ℕ :=
  match decoded with
  | none => (0, 0)
  | some wh => wh

/-- The downsampled 150×150 analysis raster of `measureSharpness`; the browser
performs the downsample, so the grid is the embedding's input. -/
structure AnalysisGrid where
  r : ℕ → ℕ → ℚ
  g : ℕ → ℕ → ℚ
  b : ℕ → ℕ → ℚ

def SIZE : ℕ := 150

/-- Grayscale conversion (app.js 72): 0.299 R + 0.587 G + 0.114 B. -/
def grayAt (img : AnalysisGrid) (x y : ℕ) : ℚ :=
  299/1000 * img.r x y + 587/1000 * img.g x y + 114/1000 * img.b x y

/-- Discrete Laplacian at a pixel (app.js 80). -/
def lapAt (img : AnalysisGrid) (x y : ℕ) : ℚ :=
  4 * grayAt img x y - grayAt img (x - 1) y - grayAt img (x + 1) y
    - grayAt img x (y - 1) - grayAt img x (y + 1)

/-- The interior pixels scanned by the double loop of app.js 77–83. -/
def interiorPixels : List (ℕ × ℕ) :=
  (List.range (SIZE - 2)).flatMap (fun y => (List.range (SIZE - 2)).map (fun x => (x + 1, y + 1)))

/-- Population variance of the Laplacian field: `sumSq / n - (sum / n) ^ 2`
(app.js 84). -/
def lapVariance (img : AnalysisGrid) : ℚ :=
  let laps := interiorPixels.map (fun p => lapAt img p.1 p.2)
  let n : ℚ := laps.length
  (laps.map (fun v => v * v)).sum / n - (laps.sum / n) ^ 2

/-- `measureSharpness` (app.js 57–89): decode failure resolves to Infinity
("can't measure — assume ok"), success to the Laplacian variance. -/
def measureSharpness (decoded : Option AnalysisGrid) : WithTop ℚ :=
  match decoded with
  | none => ⊤
  | some img => (lapVariance img : ℚ)

/-- `isTooSmall` (app.js 239): `dims.width > 0 && Math.max(w, h) < 1500`. -/
def isTooSmall (dims : ℕ × ℕ) : Bool :=
  decide (0 < dims.1) && decide (max dims.1 dims.2 < 1500)

/-- `isBlurry` (app.js 240): `sharpness < 100` (false at Infinity). -/
def isBlurry (sharpness : WithTop ℚ) : Bool :=
  decide (sharpness < (100 : WithTop ℚ))

inductive QualityWarning where
  | lowResolution
  | mayLookSoft
deriving DecidableEq

/-- `qualityWarning` (app.js 241–243): tooSmall takes precedence over blurry;
otherwise no tag. -/
def qualityWarning (dims : ℕ × ℕ) (sharpness : WithTop ℚ) : Option QualityWarning :=
  if isTooSmall dims then some QualityWarning.lowResolution
  else if isBlurry sharpness then some QualityWarning.mayLookSoft
  else none

/-- One upload slot as seen by `updateComposeButton`: whether an image is
present, plus its advisory quality tag. -/
structure Slot where
  present : Bool
  quality : Option QualityWarning

/-- The count loop of `updateComposeButton` (app.js 289–290): how many of the
first `photoCount` slots hold an image. -/
def loadedCount (slots : List Slot) (photoCount : ℕ) : ℕ :=
  ((slots.map Slot.present).take photoCount).count true

/-- `btnCompose.disabled = loaded < count` (app.js 291), read as enabledness. -/
def composeEnabled (slots : List Slot) (photoCount : ℕ) : Bool :=
  decide (photoCount ≤ loadedCount slots photoCount)

/- ── Face detection (app.js 93–117) ── -/

/-- A face bounding box as reported by the FaceDetector capability. -/
structure BBox where
  left : ℚ
  top : ℚ
  width : ℚ
  height : ℚ
deriving DecidableEq

/-- The `faces.sort(...)[0]` step (app.js 102–104): the face with the largest
bounding-box area. -/
def pickLargestFace : List BBox → Option BBox
  | [] => none
  | f :: fs =>
      some (fs.foldl
        (fun best cand =>
          if cand.width * cand.height > best.width * best.height then cand else best) f)

/-- `detectFace` (app.js 93–117).  `hasFaceDetector` models the
`"FaceDetector" in window` capability check; `decoded = none` models decode
failure (`onerror`) as well as the try/catch fail-open path; on success the
input is the image's natural size together with the detected face list. -/
def detectFace (hasFaceDetector : Bool) (decoded : Option (ℚ × ℚ × List BBox)) : FocalPoint :=
  if hasFaceDetector = false then ⟨1/2, 1/2, false⟩
  else
    match decoded with
    | none => ⟨1/2, 1/2, false⟩
    | some (nw, nh, faces) =>
        match pickLargestFace faces with
        | none => ⟨1/2, 1/2, false⟩
        | some face =>
            ⟨(face.left + face.width / 2) / nw, (face.top + face.height / 2) / nh, true⟩

/- ── Shared target focal Y (app.js 307–310) ── -/

/-- The shared target Y computed by `compose` (app.js 308–310): the mean of
the slots' focal `y` values (a missing focal point contributes 0.5), clamped
to [0.25, 0.65].  The input list has one entry per panel slot. -/
def computeTargetY (focalPoints : List (Option FocalPoint)) : ℚ :=
  let avgY := (focalPoints.map (fun fp => (fp.map FocalPoint.y).getD (1/2))).sum
    / (focalPoints.length : ℚ)
  max (1/4) (min (13/20) avgY)

/- ── Panel geometry (app.js 409–434) ── -/

/-- The geometric output of `drawPanel`: draw size and clamped offsets,
relative to the panel's own rectangle. -/
structure PanelDraw where
  drawW : ℚ
  drawH : ℚ
  offsetX : ℚ
  offsetY : ℚ
deriving DecidableEq

/-- `drawPanel` (app.js 409–434), geometry only: cover-fit base scale, user
zoom, focal-point auto-position, then user pan added and the result clamped
to `[panelDim - drawDim, 0]` in each axis. -/
def drawPanel (w h : ℚ) (focal : FocalPoint) (targetFocalY : ℚ) (img : ImgSize)
    (adj : Adjustment) : PanelDraw :=
  let baseScale := max (w / img.width) (h / img.height)
  let effectScale := baseScale * adj.scale
  let drawW := img.width * effectScale
  let drawH := img.height * effectScale
  let offsetX := (1/2 : ℚ) * w - focal.x * drawW
  let offsetY := targetFocalY * h - focal.y * drawH
  let minOffX := w - drawW
  let minOffY := h - drawH
  { drawW := drawW, drawH := drawH,
    offsetX := min 0 (max minOffX (offsetX + adj.panX)),
    offsetY := min 0 (max minOffY (offsetY + adj.panY)) }

/- ── Render layout (app.js 384–405) ── -/

/-- Panel slot width (app.js 391 and 443):
`Math.floor((formatWidth - dividerWidth * (count - 1)) / count)` (ℕ division
is the floor). -/
def slotWidth (formatWidth divW count : ℕ) : ℕ :=
  (formatWidth - divW * (count - 1)) / count

/-- One rendered panel: its rectangle inside the format's canvas (y = 0,
height = format height) and the geometry `drawPanel` produced for it. -/
structure PanelRender where
  x : ℕ
  w : ℕ
  h : ℕ
  draw : PanelDraw
deriving DecidableEq

/-- The panel loop of `renderForFormat` (app.js 399–404): starting at x = 0,
each panel after the first is preceded by a divider advance; each iteration
invokes `drawPanel` and advances by the slot width.  `rem` counts the
remaining panels, `i` the current panel index, `xAcc` the x cursor.
Lookups out of range model the `?? { x: 0.5, y: 0.5 }` fallback of app.js 415
for focal points (images and adjustments are always populated at render
time). -/
def renderLoop (slotW divW h : ℕ) (focals : List FocalPoint) (imgs : List ImgSize)
    (targetY : ℚ) (adjRow : List Adjustment) : ℕ → ℕ → ℕ → List PanelRender
  | 0, _, _ => []
  | rem + 1, i, xAcc =>
      let x := if 0 < i then xAcc + divW else xAcc
      { x := x, w := slotW, h := h,
        draw := drawPanel (slotW : ℚ) (h : ℚ) (focals.getD i ⟨1/2, 1/2, false⟩) targetY
          (imgs.getD i ⟨0, 0⟩) (adjRow.getD i defaultAdjustment) } ::
        renderLoop slotW divW h focals imgs targetY adjRow rem (i + 1) (x + slotW)

/-- `renderForFormat` (app.js 384–405), as the list of panel rectangles and
draw geometries painted into the format's canvas. -/
def renderForFormat (fmt : OutputFormat) (count : ℕ) (focals : List FocalPoint)
    (imgs : List ImgSize) (targetY : ℚ) (adjRow : List Adjustment) : List PanelRender :=
  renderLoop (slotWidth fmt.width DIVIDER_width count) DIVIDER_width fmt.height
    focals imgs targetY adjRow count 0 0

/- ── Panel hit-testing (app.js 438–452) ── -/

/-- The scan loop of `getPanelIndex` (app.js 445–451).  The code advances the
cursor by the divider width before testing every panel after the first and by
the slot width after each test; here both advances are folded into the single
step `cursor + slotW + divW`, which visits the same cursor values. -/
def panelScan (cx slotW divW : ℚ) : ℕ → ℕ → ℚ → ℤ
  | 0, _, _ => -1
  | rem + 1, i, cursor =>
      if cursor ≤ cx ∧ cx < cursor + slotW then (i : ℤ)
      else panelScan cx slotW divW rem (i + 1) (cursor + slotW + divW)

/-- `getPanelIndex` (app.js 438–452): converts the display-space x
coordinate to canvas space via `formatWidth / rect.width` and scans the slot
boundaries left to right; -1 when the press lands on a divider or outside
every panel. -/
def getPanelIndex (cssX displayW : ℚ) (formatWidth count : ℕ) : ℤ :=
  let scale : ℚ := (formatWidth : ℚ) / displayW
  let cx := cssX * scale
  panelScan cx (slotWidth formatWidth DIVIDER_width count : ℕ) DIVIDER_width count 0 0

/- ── Composition state and handlers (app.js 19–29, 312–314, 454–563) ── -/

/-- The drag context stored in `state.drag` (app.js 464–473). -/
structure Drag where
  formatIndex : ℕ
  formatWidth : ℕ
  panelIndex : ℕ
  startMouseX : ℚ
  startMouseY : ℚ
  startPanX : ℚ
  startPanY : ℚ
deriving DecidableEq

/-- The parts of `state` (app.js 19–29) the composition engine reads and
writes: slot data, the shared target Y, the per-format adjustment matrix,
the per-format rendered canvases, and the drag context. -/
structure AppState where
  photoCount : ℕ
  focalPoints : List FocalPoint
  imageSizes : List ImgSize
  targetFocalY : ℚ
  adjustments : List (List Adjustment)
  canvases : List (List PanelRender)
  composited : Bool
  drag : Option Drag
deriving DecidableEq

/-- Read `state.adjustments[fi][pi]`. -/
def getAdj (st : AppState) (fi pi : ℕ) : Adjustment :=
  (st.adjustments.getD fi []).getD pi defaultAdjustment

/-- Write `state.adjustments[fi][pi] = a` (in-place mutation of the nested
array, modelled functionally). -/
def setAdj (st : AppState) (fi pi : ℕ) (a : Adjustment) : AppState :=
  { st with adjustments := st.adjustments.set fi ((st.adjustments.getD fi []).set pi a) }

/-- `state.adjustments` right after `compose` initializes it (app.js
312–314): one fresh default adjustment per (format, panel) pair. -/
def initAdjustments (count : ℕ) : List (List Adjustment) :=
  OUTPUT_FORMATS.map (fun _ => List.replicate count defaultAdjustment)

/-- What `renderForFormat(fi, OUTPUT_FORMATS[fi])` paints, reading only
format `fi`'s adjustment row from the state. -/
def renderOutput (st : AppState) (fi : ℕ) : List PanelRender :=
  match OUTPUT_FORMATS.get? fi with
  | none => []
  | some fmt =>
      renderForFormat fmt st.photoCount st.focalPoints st.imageSizes st.targetFocalY
        (st.adjustments.getD fi [])

/-- Re-rendering format `fi` replaces only that format's canvas (the early
return for a missing canvas corresponds to `List.set` out of range being a
no-op). -/
def rerenderFormat (st : AppState) (fi : ℕ) : AppState :=
  { st with canvases := st.canvases.set fi (renderOutput st fi) }

/-- The `mousedown` handler of `attachCanvasDrag` (app.js 457–476): no-op
unless composited; resolves the panel from the display-space press position;
no drag starts when the hit is -1; otherwise captures the current pan as the
drag baseline. -/
def mousedown (st : AppState) (fi : ℕ) (clientX clientY rectLeft displayW : ℚ) : AppState :=
  if st.composited = false then st
  else
    match OUTPUT_FORMATS.get? fi with
    | none => st
    | some fmt =>
        let p := getPanelIndex (clientX - rectLeft) displayW fmt.width st.photoCount
        if p < 0 then st
        else
          let dr : Drag :=
            { formatIndex := fi, formatWidth := fmt.width, panelIndex := p.toNat,
              startMouseX := clientX, startMouseY := clientY,
              startPanX := (getAdj st fi p.toNat).panX,
              startPanY := (getAdj st fi p.toNat).panY }
          { st with drag := some dr }

/-- The global `mousemove` handler (app.js 479–491): no-op without a drag;
otherwise converts the pointer delta to canvas space with
`formatWidth / rect.width`, adds it to the baseline pan with no clamping,
and re-renders only the dragged format. -/
def mousemove (st : AppState) (clientX clientY displayW : ℚ) : AppState :=
  match st.drag with
  | none => st
  | some dr =>
      let cssToCanvas := (dr.formatWidth : ℚ) / displayW
      let old := getAdj st dr.formatIndex dr.panelIndex
      let adj := { old with
        panX := dr.startPanX + (clientX - dr.startMouseX) * cssToCanvas,
        panY := dr.startPanY + (clientY - dr.startMouseY) * cssToCanvas }
      rerenderFormat (setAdj st dr.formatIndex dr.panelIndex adj) dr.formatIndex

/-- The global `mouseup` handler (app.js 493–498): clears the drag context. -/
def mouseup (st : AppState) : AppState :=
  { st with drag := none }

/-- The zoom slider's input handler (app.js 537–543): sets the panel's scale
to the slider value, zeroes both pan components, and re-renders only that
format. -/
def sliderInput (st : AppState) (fi pi : ℕ) (v : ℚ) : AppState :=
  rerenderFormat (setAdj st fi pi { panX := 0, panY := 0, scale := v }) fi

/-- The per-panel Reset button handler (app.js 550–555): restores the default
adjustment and re-renders only that format. -/
def resetAdj (st : AppState) (fi pi : ℕ) : AppState :=
  rerenderFormat (setAdj st fi pi { panX := 0, panY := 0, scale := 1 }) fi

/- ── Sample states used by the concrete witnesses below ── -/

/-- The first output format, `2×1` at 2000×1000. -/
def fmt2x1 : OutputFormat := ⟨"2×1", 2000, 1000, "2x1"⟩

/-- A composited 2-panel session with no drag in progress. -/
def sampleHitState : AppState := ⟨2, [], [], 1/2, [], [], true, none⟩

/-- A composited 1-panel session mid-drag on format 0, baseline pan (7, 3). -/
def sampleDragState : AppState :=
  ⟨1, [], [], 1/2, [[⟨7, 3, 1⟩]], [[]], true, some ⟨0, 2000, 0, 0, 0, 7, 3⟩⟩

/-- A composited 1-panel session whose panel has been panned and zoomed. -/
def sampleResetState : AppState :=
  ⟨1, [⟨1/2, 1/3, true⟩], [⟨4, 5⟩], 1/2, [[⟨5, 6, 2⟩]], [[]], true, none⟩

/-- A composited 2-panel session with distinct adjustments everywhere. -/
def sampleSliderState : AppState :=
  ⟨2, [], [], 1/2, [[⟨5, 6, 1⟩, ⟨1, 2, 3⟩], [⟨9, 8, 7⟩, ⟨0, 0, 1⟩]], [[], []], true, none⟩

/-- A composited session mid-drag on format 0 with two adjustment rows. -/
def sampleIsolationState : AppState :=
  ⟨1, [], [], 1/2, [[⟨1, 2, 1⟩], [⟨4, 4, 1⟩]], [[], []], true, some ⟨0, 2000, 0, 0, 0, 1, 2⟩⟩

/-- The x cursor value on entry to iteration `i` of the panel loop. -/
def entryX (slotW divW : ℕ) : ℕ → ℕ
  | 0 => 0
  | i + 1 => (i + 1) * slotW + i * divW

/- ── List helper lemmas ── -/

lemma getD_set_self {α : Type} (l : List α) (i : ℕ) (a : α) :
    (l.set i a).getD i a = a := by
  induction l generalizing i with
  | nil => simp [List.getD]
  | cons x xs ih =>
      cases i with
      | zero => simp [List.getD]
      | succ n => simpa [List.getD] using ih n

lemma getD_set_eq {α : Type} (l : List α) (i : ℕ) (a d : α) (h : i < l.length) :
    (l.set i a).getD i d = a := by
  induction l generalizing i with
  | nil => simp at h
  | cons x xs ih =>
      cases i with
      | zero => simp [List.getD]
      | succ n => simpa [List.getD] using ih n (by simpa using h)

lemma getD_set_ne {α : Type} (l : List α) (i j : ℕ) (a d : α) (h : i ≠ j) :
    (l.set i a).getD j d = l.getD j d := by
  induction l generalizing i j with
  | nil => simp
  | cons x xs ih =>
      cases i with
      | zero =>
          cases j with
          | zero => exact absurd rfl h
          | succ m => simp [List.getD]
      | succ n =>
          cases j with
          | zero => simp [List.getD]
          | succ m => simpa [List.getD] using ih n m (fun hc => h (by omega))

lemma getD_replicate {α : Type} (n i : ℕ) (a : α) :
    (List.replicate n a).getD i a = a := by
  induction n generalizing i with
  | zero => simp [List.getD]
  | succ m ih =>
      cases i with
      | zero => simp [List.replicate, List.getD]
      | succ k => simp [List.replicate, List.getD]

/- ── Cover / clamp core lemmas ── -/

/-- Core cover bound: if `m` dominates `a / ia` then drawing at scale
`ia * m * s` with `s ≥ 1` covers `a`. -/
lemma cover_aux (a ia m s : ℚ) (ha : 0 < a) (hia : 0 < ia) (hm : a / ia ≤ m)
    (hs : 1 ≤ s) : a ≤ ia * m * s := by
  have h0 : ia * (a / ia) = a := by field_simp
  have h1 : a ≤ ia * m := by
    calc a = ia * (a / ia) := h0.symm
    _ ≤ ia * m := mul_le_mul_of_nonneg_left hm hia.le
  calc a ≤ ia * m := h1
  _ = ia * m * 1 := (mul_one _).symm
  _ ≤ ia * m * s := mul_le_mul_of_nonneg_left hs (le_trans ha.le h1)

lemma drawPanel_drawW_ge (w h : ℚ) (focal : FocalPoint) (targetY : ℚ) (img : ImgSize)
    (adj : Adjustment) (hw : 0 < w) (hiw : 0 < img.width) (hs : 1 ≤ adj.scale) :
    w ≤ (drawPanel w h focal targetY img adj).drawW := by
  show w ≤ img.width * (max (w / img.width) (h / img.height) * adj.scale)
  rw [← mul_assoc]
  exact cover_aux w img.width _ adj.scale hw hiw (le_max_left _ _) hs

lemma drawPanel_drawH_ge (w h : ℚ) (focal : FocalPoint) (targetY : ℚ) (img : ImgSize)
    (adj : Adjustment) (hh : 0 < h) (hih : 0 < img.height) (hs : 1 ≤ adj.scale) :
    h ≤ (drawPanel w h focal targetY img adj).drawH := by
  show h ≤ img.height * (max (w / img.width) (h / img.height) * adj.scale)
  rw [← mul_assoc]
  exact cover_aux h img.height _ adj.scale hh hih (le_max_right _ _) hs

/-- The saturating clamp `min 0 (max lo z)` lands in `[lo, 0]` whenever
`lo ≤ 0`, independently of `z`. -/
lemma clamp_bounds (lo z : ℚ) (hlo : lo ≤ 0) :
    lo ≤ min 0 (max lo z) ∧ min 0 (max lo z) ≤ 0 :=
  ⟨le_min hlo (le_max_left _ _), min_le_left _ _⟩

/-- C1: for positive panel and image dimensions, any focal point, target Y
and pan of any magnitude, with `adj.scale ≥ 1`, `drawPanel`'s offsets are
the clamp of `rawOffset + pan` (pan is a delta added before clamping) and
satisfy `panelDim - drawDim ≤ offset ≤ 0` in each axis. -/
theorem drawPanel_offsets_clamped (w h : ℚ) (focal : FocalPoint) (targetY : ℚ)
    (img : ImgSize) (adj : Adjustment)
    (hw : 0 < w) (hh : 0 < h) (hiw : 0 < img.width) (hih : 0 < img.height)
    (hs : 1 ≤ adj.scale) :
    ((drawPanel w h focal targetY img adj).offsetX
        = min 0 (max (w - (drawPanel w h focal targetY img adj).drawW)
            ((1/2 : ℚ) * w - focal.x * (drawPanel w h focal targetY img adj).drawW + adj.panX))
      ∧ (drawPanel w h focal targetY img adj).offsetY
        = min 0 (max (h - (drawPanel w h focal targetY img adj).drawH)
            (targetY * h - focal.y * (drawPanel w h focal targetY img adj).drawH + adj.panY)))
    ∧ (w - (drawPanel w h focal targetY img adj).drawW
          ≤ (drawPanel w h focal targetY img adj).offsetX
        ∧ (drawPanel w h focal targetY img adj).offsetX ≤ 0)
    ∧ (h - (drawPanel w h focal targetY img adj).drawH
          ≤ (drawPanel w h focal targetY img adj).offsetY
        ∧ (drawPanel w h focal targetY img adj).offsetY ≤ 0) := by
  have hW := drawPanel_drawW_ge w h focal targetY img adj hw hiw hs
  have hH := drawPanel_drawH_ge w h focal targetY img adj hh hih hs
  refine ⟨⟨rfl, rfl⟩, ?_, ?_⟩
  · exact clamp_bounds _ _ (by linarith)
  · exact clamp_bounds _ _ (by linarith)

/-- Witness for C1 at a concrete panel, image and an extreme out-of-range
pan. -/
theorem drawPanel_offsets_clamped_witness :
    ((10 : ℚ) - (drawPanel 10 10 ⟨1/2, 1/2, false⟩ (1/2) ⟨5, 4⟩ ⟨1000, -1000, 2⟩).drawW
        ≤ (drawPanel 10 10 ⟨1/2, 1/2, false⟩ (1/2) ⟨5, 4⟩ ⟨1000, -1000, 2⟩).offsetX
      ∧ (drawPanel 10 10 ⟨1/2, 1/2, false⟩ (1/2) ⟨5, 4⟩ ⟨1000, -1000, 2⟩).offsetX ≤ 0)
    ∧ ((10 : ℚ) - (drawPanel 10 10 ⟨1/2, 1/2, false⟩ (1/2) ⟨5, 4⟩ ⟨1000, -1000, 2⟩).drawH
        ≤ (drawPanel 10 10 ⟨1/2, 1/2, false⟩ (1/2) ⟨5, 4⟩ ⟨1000, -1000, 2⟩).offsetY
      ∧ (drawPanel 10 10 ⟨1/2, 1/2, false⟩ (1/2) ⟨5, 4⟩ ⟨1000, -1000, 2⟩).offsetY ≤ 0) :=
  (drawPanel_offsets_clamped 10 10 ⟨1/2, 1/2, false⟩ (1/2) ⟨5, 4⟩ ⟨1000, -1000, 2⟩
    (by norm_num) (by norm_num) (by norm_num) (by norm_num) (by norm_num)).2

/-- C4: `baseScale = max(panelRect.w / imageSize.w, panelRect.h / imageSize.h)`
makes the drawn image cover the panel: `baseScale * imageDim ≥ panelDim` in
each axis, and for every `adj.scale ≥ 1` the draw dimensions still dominate
the panel dimensions. -/
theorem drawPanel_cover (w h : ℚ) (focal : FocalPoint) (targetY : ℚ)
    (img : ImgSize) (adj : Adjustment)
    (hw : 0 < w) (hh : 0 < h) (hiw : 0 < img.width) (hih : 0 < img.height)
    (hs : 1 ≤ adj.scale) :
    ((drawPanel w h focal targetY img adj).drawW
        = img.width * (max (w / img.width) (h / img.height) * adj.scale)
      ∧ (drawPanel w h focal targetY img adj).drawH
        = img.height * (max (w / img.width) (h / img.height) * adj.scale))
    ∧ (w ≤ img.width * max (w / img.width) (h / img.height)
      ∧ h ≤ img.height * max (w / img.width) (h / img.height))
    ∧ (w ≤ (drawPanel w h focal targetY img adj).drawW
      ∧ h ≤ (drawPanel w h focal targetY img adj).drawH) := by
  refine ⟨⟨rfl, rfl⟩, ⟨?_, ?_⟩, ?_, ?_⟩
  · have := cover_aux w img.width (max (w / img.width) (h / img.height)) 1 hw hiw
      (le_max_left _ _) le_rfl
    simpa using this
  · have := cover_aux h img.height (max (w / img.width) (h / img.height)) 1 hh hih
      (le_max_right _ _) le_rfl
    simpa using this
  · exact drawPanel_drawW_ge w h focal targetY img adj hw hiw hs
  · exact drawPanel_drawH_ge w h focal targetY img adj hh hih hs

/-- Witness for C4 at a concrete panel and image. -/
theorem drawPanel_cover_witness :
    (7 : ℚ) ≤ (drawPanel 7 3 ⟨1/3, 2/3, true⟩ (2/5) ⟨2, 9⟩ ⟨4, -8, 3/2⟩).drawW
    ∧ (3 : ℚ) ≤ (drawPanel 7 3 ⟨1/3, 2/3, true⟩ (2/5) ⟨2, 9⟩ ⟨4, -8, 3/2⟩).drawH :=
  (drawPanel_cover 7 3 ⟨1/3, 2/3, true⟩ (2/5) ⟨2, 9⟩ ⟨4, -8, 3/2⟩
    (by norm_num) (by norm_num) (by norm_num) (by norm_num) (by norm_num)).2.2

/-- C3: the shared target Y equals the mean of the focal `y` components over
the panel slots (missing focal points contribute 0.5) clamped to
[0.25, 0.65]; it is invariant under permutation of the focal-point list and
always lies in [0.25, 0.65]. -/
theorem computeTargetY_mean_perm_range (l l' : List (Option FocalPoint)) (h : l.Perm l') :
    computeTargetY l
        = max (1/4) (min (13/20)
            ((l.map (fun fp => (fp.map FocalPoint.y).getD (1/2))).sum / (l.length : ℚ)))
    ∧ computeTargetY l = computeTargetY l'
    ∧ (1/4 : ℚ) ≤ computeTargetY l ∧ computeTargetY l ≤ 13/20 := by
  refine ⟨rfl, ?_, ?_, ?_⟩
  · unfold computeTargetY
    rw [(h.map _).sum_eq, h.length_eq]
  · exact le_max_left _ _
  · exact max_le (by norm_num) (min_le_left _ _)

/-- Witness for C3: two slots, one focal point at y = 1/5 and one missing,
swapped. -/
theorem computeTargetY_mean_perm_range_witness :
    computeTargetY [some ⟨1/2, 1/5, true⟩, none]
        = max (1/4) (min (13/20)
            (([some (⟨1/2, 1/5, true⟩ : FocalPoint), none].map
                (fun fp => (fp.map FocalPoint.y).getD (1/2))).sum
              / (([some (⟨1/2, 1/5, true⟩ : FocalPoint), none].length : ℚ))))
    ∧ computeTargetY [some ⟨1/2, 1/5, true⟩, none]
        = computeTargetY [none, some ⟨1/2, 1/5, true⟩]
    ∧ (1/4 : ℚ) ≤ computeTargetY [some ⟨1/2, 1/5, true⟩, none]
    ∧ computeTargetY [some ⟨1/2, 1/5, true⟩, none] ≤ 13/20 :=
  computeTargetY_mean_perm_range [some ⟨1/2, 1/5, true⟩, none]
    [none, some ⟨1/2, 1/5, true⟩]
    (List.Perm.swap (none : Option FocalPoint) (some ⟨1/2, 1/5, true⟩) [])

/-- C5: the quality tag rule.  `tooSmall` holds exactly when the dimensions
were detectable (decode succeeded — decoded raster dimensions are positive)
and the larger dimension is under 1500; `isBlurry` is `blurScore < 100`;
precedence is tooSmall → "low resolution", else blurry → "may look soft",
else none; and the tag never affects whether composition is enabled. -/
theorem quality_tag_rule (decoded : Option (ℕ × ℕ)) (sharp : WithTop ℚ)
    (hpos : ∀ wh, decoded = some wh → 0 < wh.1 ∧ 0 < wh.2) :
    (isTooSmall (getImageSize decoded) = true ↔
        decoded.isSome = true ∧ max (getImageSize decoded).1 (getImageSize decoded).2 < 1500)
    ∧ (isBlurry sharp = true ↔ sharp < (100 : WithTop ℚ))
    ∧ (isTooSmall (getImageSize decoded) = true →
        qualityWarning (getImageSize decoded) sharp = some QualityWarning.lowResolution)
    ∧ (isTooSmall (getImageSize decoded) = false → isBlurry sharp = true →
        qualityWarning (getImageSize decoded) sharp = some QualityWarning.mayLookSoft)
    ∧ (isTooSmall (getImageSize decoded) = false → isBlurry sharp = false →
        qualityWarning (getImageSize decoded) sharp = none)
    ∧ (∀ (s s' : List Slot) (n : ℕ), s.map Slot.present = s'.map Slot.present →
        composeEnabled s n = composeEnabled s' n) := by
  refine ⟨?_, ?_, ?_, ?_, ?_, ?_⟩
  · cases decoded with
    | none => simp [getImageSize, isTooSmall]
    | some wh =>
        have h1 := (hpos wh rfl).1
        simp [getImageSize, isTooSmall, h1]
  · simp [isBlurry]
  · intro h
    simp [qualityWarning, h]
  · intro h1 h2
    simp [qualityWarning, h1, h2]
  · intro h1 h2
    simp [qualityWarning, h1, h2]
  · intro s s' n hmap
    simp [composeEnabled, loadedCount, hmap]

/-- Witness for C5: a 2000×1300 photo (detectable, largest dimension ≥ 1500
is false) with sharpness 50. -/
theorem quality_tag_rule_witness :
    isTooSmall (getImageSize (some (2000, 1300))) = true ↔
      (some (2000, 1300)).isSome = true
        ∧ max (getImageSize (some (2000, 1300))).1 (getImageSize (some (2000, 1300))).2 < 1500 :=
  (quality_tag_rule (some (2000, 1300)) ((50 : ℚ) : WithTop ℚ)
    (by intro wh hw; simp only [Option.some.injEq] at hw; subst hw; exact ⟨by norm_num, by norm_num⟩)).1

/-- C6: when the image for a slot cannot be decoded, every analysis path
resolves to its fail-open default: blur score +∞ (so not blurry), dimensions
0×0 (so not too small and no quality tag), focal point center/not-found,
both with and without the FaceDetector capability; and default framing with
that focal point still yields clamped, panel-covering offsets (shown at a
concrete panel and image). -/
theorem decode_failure_fails_open :
    measureSharpness none = ⊤
    ∧ isBlurry (measureSharpness none) = false
    ∧ getImageSize none = (0, 0)
    ∧ isTooSmall (getImageSize none) = false
    ∧ qualityWarning (getImageSize none) (measureSharpness none) = none
    ∧ detectFace true none = ⟨1/2, 1/2, false⟩
    ∧ detectFace false none = ⟨1/2, 1/2, false⟩
    ∧ ((120 : ℚ) - (drawPanel 120 80 (detectFace true none) (1/2) ⟨100, 50⟩ defaultAdjustment).drawW
        ≤ (drawPanel 120 80 (detectFace true none) (1/2) ⟨100, 50⟩ defaultAdjustment).offsetX
      ∧ (drawPanel 120 80 (detectFace true none) (1/2) ⟨100, 50⟩ defaultAdjustment).offsetX ≤ 0
      ∧ (80 : ℚ) - (drawPanel 120 80 (detectFace true none) (1/2) ⟨100, 50⟩ defaultAdjustment).drawH
        ≤ (drawPanel 120 80 (detectFace true none) (1/2) ⟨100, 50⟩ defaultAdjustment).offsetY
      ∧ (drawPanel 120 80 (detectFace true none) (1/2) ⟨100, 50⟩ defaultAdjustment).offsetY ≤ 0) := by
  refine ⟨rfl, ?_, rfl, rfl, ?_, rfl, rfl, ?_⟩
  · decide
  · decide
  · norm_num [drawPanel, detectFace, defaultAdjustment, min_def, max_def]

/- ── panelScan characterization ── -/

/-- If `cx` lies in the `k`-th slot interval ahead of the cursor, the scan
returns index `i + k` (slots are disjoint since `s, d ≥ 0`). -/
lemma panelScan_hit (cx s d : ℚ) (hd : 0 ≤ d) (rem : ℕ) :
    ∀ (k i : ℕ) (cursor : ℚ), k < rem →
      cursor + (k : ℚ) * (s + d) ≤ cx → cx < cursor + (k : ℚ) * (s + d) + s →
      panelScan cx s d rem i cursor = ((i + k : ℕ) : ℤ) := by
  induction rem with
  | zero => intro k i cursor hk _ _; exact absurd hk (Nat.not_lt_zero k)
  | succ rem ih =>
      intro k i cursor hk h1 h2
      cases k with
      | zero =>
          have hc1 : cursor ≤ cx := by simpa using h1
          have hc2 : cx < cursor + s := by
            have h2' := h2
            push_cast at h2'
            linarith
          simp only [panelScan]
          rw [if_pos ⟨hc1, hc2⟩]
          norm_num
      | succ k' =>
          push_cast at h1 h2
          have hexp : ((k' : ℚ) + 1) * (s + d) = (k' : ℚ) * (s + d) + s + d := by ring
          have hkk : (0 : ℚ) ≤ (k' : ℚ) * (s + d) + d := by
            have hsd : (0 : ℚ) ≤ (k' : ℚ) * (s + d) + (k' : ℚ) * 0 := by
              nlinarith [h1, h2]
            nlinarith [h1, h2]
          have hge : cursor + s ≤ cx := by nlinarith [h1]
          have hno : ¬ (cursor ≤ cx ∧ cx < cursor + s) :=
            fun hc => absurd hc.2 (not_lt.mpr hge)
          simp only [panelScan]
          rw [if_neg hno]
          have h1' : (cursor + s + d) + (k' : ℚ) * (s + d) ≤ cx := by nlinarith [h1]
          have h2' : cx < (cursor + s + d) + (k' : ℚ) * (s + d) + s := by nlinarith [h2]
          rw [ih k' (i + 1) (cursor + s + d) (by omega) h1' h2']
          norm_cast
          omega

/-- If `cx` lies in no slot interval, the scan returns -1. -/
lemma panelScan_miss (cx s d : ℚ) (rem : ℕ) :
    ∀ (i : ℕ) (cursor : ℚ),
      (∀ k, k < rem →
        ¬ (cursor + (k : ℚ) * (s + d) ≤ cx ∧ cx < cursor + (k : ℚ) * (s + d) + s)) →
      panelScan cx s d rem i cursor = -1 := by
  induction rem with
  | zero => intro i cursor _; rfl
  | succ rem ih =>
      intro i cursor hall
      have h0 : ¬ (cursor ≤ cx ∧ cx < cursor + s) := by
        have := hall 0 (Nat.succ_pos rem)
        simpa using this
      simp only [panelScan]
      rw [if_neg h0]
      apply ih
      intro k hk hc
      have hK := hall (k + 1) (by omega)
      push_cast at hK
      rw [show cursor + ((k : ℚ) + 1) * (s + d) = cursor + s + d + (k : ℚ) * (s + d) from by
        ring] at hK
      exact hK hc

/-- The scan either misses entirely (-1) or returns the index of a slot
interval containing `cx`. -/
lemma panelScan_cases (cx s d : ℚ) (rem : ℕ) :
    ∀ (i : ℕ) (cursor : ℚ),
      panelScan cx s d rem i cursor = -1 ∨
      ∃ k, k < rem ∧ panelScan cx s d rem i cursor = ((i + k : ℕ) : ℤ)
        ∧ cursor + (k : ℚ) * (s + d) ≤ cx ∧ cx < cursor + (k : ℚ) * (s + d) + s := by
  induction rem with
  | zero => intro i cursor; left; rfl
  | succ rem ih =>
      intro i cursor
      by_cases hc : cursor ≤ cx ∧ cx < cursor + s
      · right
        refine ⟨0, Nat.succ_pos rem, ?_, ?_, ?_⟩
        · simp only [panelScan]
          rw [if_pos hc]
          norm_num
        · simpa using hc.1
        · simpa using hc.2
      · rcases ih (i + 1) (cursor + s + d) with h | ⟨k, hk, heq, hb1, hb2⟩
        · left
          simp only [panelScan]
          rwa [if_neg hc]
        · right
          refine ⟨k + 1, by omega, ?_, ?_, ?_⟩
          · simp only [panelScan]
            rw [if_neg hc, heq]
            norm_cast
            omega
          · push_cast
            rw [show cursor + ((k : ℚ) + 1) * (s + d) = cursor + s + d + (k : ℚ) * (s + d) from by
              ring]
            exact hb1
          · push_cast
            rw [show cursor + ((k : ℚ) + 1) * (s + d) = cursor + s + d + (k : ℚ) * (s + d) from by
              ring]
            exact hb2

/- ── renderLoop characterization ── -/

/-- Unfolding one iteration of the panel loop. -/
lemma renderLoop_succ (slotW divW h : ℕ) (focals : List FocalPoint) (imgs : List ImgSize)
    (targetY : ℚ) (adjRow : List Adjustment) (rem i xAcc : ℕ) :
    renderLoop slotW divW h focals imgs targetY adjRow (rem + 1) i xAcc
      = { x := (if 0 < i then xAcc + divW else xAcc), w := slotW, h := h,
          draw := drawPanel (slotW : ℚ) (h : ℚ) (focals.getD i ⟨1/2, 1/2, false⟩) targetY
            (imgs.getD i ⟨0, 0⟩) (adjRow.getD i defaultAdjustment) } ::
        renderLoop slotW divW h focals imgs targetY adjRow rem (i + 1)
          ((if 0 < i then xAcc + divW else xAcc) + slotW) := rfl

/-- Panel `i + j` of the loop started at iteration `i` (with the matching
cursor) occupies the rectangle starting at `(i + j) * (slotW + divW)` of
width `slotW`, drawn with that panel's own focal point, image and
adjustment. -/
lemma renderLoop_get?_eq (slotW divW h : ℕ) (focals : List FocalPoint) (imgs : List ImgSize)
    (targetY : ℚ) (adjRow : List Adjustment) (rem : ℕ) :
    ∀ (i j : ℕ), j < rem →
      (renderLoop slotW divW h focals imgs targetY adjRow rem i (entryX slotW divW i)).get? j
        = some { x := (i + j) * (slotW + divW), w := slotW, h := h,
                 draw := drawPanel (slotW : ℚ) (h : ℚ) (focals.getD (i + j) ⟨1/2, 1/2, false⟩)
                   targetY (imgs.getD (i + j) ⟨0, 0⟩)
                   (adjRow.getD (i + j) defaultAdjustment) } := by
  induction rem with
  | zero => intro i j hj; exact absurd hj (Nat.not_lt_zero j)
  | succ rem ih =>
      intro i j hj
      have hx : (if 0 < i then entryX slotW divW i + divW else entryX slotW divW i)
          = i * (slotW + divW) := by
        cases i with
        | zero => simp [entryX]
        | succ n =>
            simp only [entryX, Nat.succ_pos, if_pos]
            ring
      have hnext : (if 0 < i then entryX slotW divW i + divW else entryX slotW divW i) + slotW
          = entryX slotW divW (i + 1) := by
        cases i with
        | zero => simp [entryX]
        | succ n =>
            simp only [entryX, Nat.succ_pos, if_pos]
            ring
      cases j with
      | zero =>
          rw [renderLoop_succ, hx]
          rfl
      | succ jj =>
          rw [renderLoop_succ]
          have harr : i + 1 + jj = i + (jj + 1) := by omega
          have hih := ih (i + 1) jj (by omega)
          rw [harr] at hih
          rw [List.get?_cons_succ, hnext]
          exact hih

/-- The panel loop draws `rem` panels. -/
lemma renderLoop_length (slotW divW h : ℕ) (focals : List FocalPoint) (imgs : List ImgSize)
    (targetY : ℚ) (adjRow : List Adjustment) (rem : ℕ) :
    ∀ (i xAcc : ℕ),
      (renderLoop slotW divW h focals imgs targetY adjRow rem i xAcc).length = rem := by
  induction rem with
  | zero => intro i xAcc; rfl
  | succ rem ih =>
      intro i xAcc
      rw [renderLoop_succ]
      simp [ih]

/-- Panel `j`'s rendered geometry depends on the adjustment row only through
the entry at index `i + j`. -/
lemma renderLoop_get?_congr (slotW divW h : ℕ) (focals : List FocalPoint) (imgs : List ImgSize)
    (targetY : ℚ) (rowA rowB : List Adjustment) (rem : ℕ) :
    ∀ (i j xAcc : ℕ),
      rowA.getD (i + j) defaultAdjustment = rowB.getD (i + j) defaultAdjustment →
      (renderLoop slotW divW h focals imgs targetY rowA rem i xAcc).get? j
        = (renderLoop slotW divW h focals imgs targetY rowB rem i xAcc).get? j := by
  induction rem with
  | zero => intro i j xAcc _; rfl
  | succ rem ih =>
      intro i j xAcc hrow
      cases j with
      | zero =>
          rw [renderLoop_succ, renderLoop_succ]
          have hrow' : rowA.getD i defaultAdjustment = rowB.getD i defaultAdjustment := hrow
          simp only [List.get?]
          rw [hrow']
      | succ jj =>
          rw [renderLoop_succ, renderLoop_succ]
          simp only [List.get?]
          exact ih (i + 1) jj _ (by
            rw [show i + 1 + jj = i + (jj + 1) from by omega]
            exact hrow)

/- ── State-level helper lemmas ── -/

lemma getD_len_le {α : Type} (l : List α) (i : ℕ) (d : α) (h : l.length ≤ i) :
    l.getD i d = d := by
  induction l generalizing i with
  | nil => cases i <;> rfl
  | cons x xs ih =>
      cases i with
      | zero => simp at h
      | succ n => simpa [List.getD] using ih n (by simpa using h)

lemma get?_len_le {α : Type} (l : List α) (i : ℕ) (h : l.length ≤ i) :
    l.get? i = none := by
  induction l generalizing i with
  | nil => cases i <;> rfl
  | cons x xs ih =>
      cases i with
      | zero => simp at h
      | succ n => simpa using ih n (by simpa using h)

/-- The panel geometries `renderForFormat(fi, OUTPUT_FORMATS[fi])` paints:
panel `j` occupies `[j * (slotW + divW), j * (slotW + divW) + slotW)` and is
drawn from that panel's focal point, image and adjustment. -/
lemma renderOutput_get? (st : AppState) (fi : ℕ) (fmt : OutputFormat)
    (hfmt : OUTPUT_FORMATS.get? fi = some fmt) (j : ℕ) (hj : j < st.photoCount) :
    (renderOutput st fi).get? j
      = some { x := j * (slotWidth fmt.width DIVIDER_width st.photoCount + DIVIDER_width),
               w := slotWidth fmt.width DIVIDER_width st.photoCount, h := fmt.height,
               draw := drawPanel ((slotWidth fmt.width DIVIDER_width st.photoCount : ℕ) : ℚ)
                 ((fmt.height : ℕ) : ℚ) (st.focalPoints.getD j ⟨1/2, 1/2, false⟩)
                 st.targetFocalY (st.imageSizes.getD j ⟨0, 0⟩)
                 ((st.adjustments.getD fi []).getD j defaultAdjustment) } := by
  have h1 : renderOutput st fi = renderForFormat fmt st.photoCount st.focalPoints
      st.imageSizes st.targetFocalY (st.adjustments.getD fi []) := by
    unfold renderOutput
    rw [hfmt]
  rw [h1]
  unfold renderForFormat
  have h2 := renderLoop_get?_eq (slotWidth fmt.width DIVIDER_width st.photoCount) DIVIDER_width
    fmt.height st.focalPoints st.imageSizes st.targetFocalY (st.adjustments.getD fi [])
    st.photoCount 0 j hj
  simpa [entryX] using h2

/-- `renderForFormat` paints exactly `photoCount` panels. -/
lemma renderOutput_get?_none (st : AppState) (fi : ℕ) (fmt : OutputFormat)
    (hfmt : OUTPUT_FORMATS.get? fi = some fmt) (j : ℕ) (hj : st.photoCount ≤ j) :
    (renderOutput st fi).get? j = none := by
  have h1 : renderOutput st fi = renderForFormat fmt st.photoCount st.focalPoints
      st.imageSizes st.targetFocalY (st.adjustments.getD fi []) := by
    unfold renderOutput
    rw [hfmt]
  rw [h1]
  unfold renderForFormat
  apply get?_len_le
  rw [renderLoop_length]
  exact hj

/-- `getPanelIndex` unfolded to the scan over canvas-space coordinates. -/
lemma getPanelIndex_eq (cssX displayW : ℚ) (formatWidth count : ℕ) :
    getPanelIndex cssX displayW formatWidth count
      = panelScan (cssX * ((formatWidth : ℚ) / displayW))
          ((slotWidth formatWidth DIVIDER_width count : ℕ) : ℚ) ((DIVIDER_width : ℕ) : ℚ)
          count 0 0 := rfl

lemma setAdj_adjustments (st : AppState) (fi pi : ℕ) (a : Adjustment) :
    (setAdj st fi pi a).adjustments
      = st.adjustments.set fi ((st.adjustments.getD fi []).set pi a) := rfl

lemma setAdj_row_getD_self (st : AppState) (fi pi : ℕ) (a : Adjustment) :
    ((setAdj st fi pi a).adjustments.getD fi []).getD pi a = a := by
  by_cases hfi : fi < st.adjustments.length
  · rw [setAdj_adjustments, getD_set_eq _ _ _ _ hfi]
    exact getD_set_self _ pi a
  · rw [setAdj_adjustments,
      getD_len_le (st.adjustments.set fi ((st.adjustments.getD fi []).set pi a)) fi []
        (by simpa using le_of_not_lt hfi)]
    rfl

/-- Each row created at composition time is `photoCount` default
adjustments. -/
lemma initAdjustments_getD (count fi : ℕ) (h : fi < OUTPUT_FORMATS.length) :
    (initAdjustments count).getD fi [] = List.replicate count defaultAdjustment := by
  rcases fi with _ | fi2
  · rfl
  · rcases fi2 with _ | fi3
    · rfl
    · exact absurd h (by simp [OUTPUT_FORMATS])

/-- `renderForFormat fj` reads only `photoCount`, the slot data, the shared
target Y and format `fj`'s own adjustment row. -/
lemma renderOutput_congr (st st' : AppState) (fj : ℕ)
    (h1 : st'.photoCount = st.photoCount) (h2 : st'.focalPoints = st.focalPoints)
    (h3 : st'.imageSizes = st.imageSizes) (h4 : st'.targetFocalY = st.targetFocalY)
    (h5 : st'.adjustments.getD fj [] = st.adjustments.getD fj []) :
    renderOutput st' fj = renderOutput st fj := by
  unfold renderOutput
  rw [h1, h2, h3, h4, h5]

/-- Writing one adjustment of format `fi` and re-rendering format `fi`
leaves every other format's adjustment row, canvas, and render output
untouched. -/
lemma mutate_isolated (st : AppState) (fi pi fj : ℕ) (a : Adjustment) (hne : fj ≠ fi) :
    (rerenderFormat (setAdj st fi pi a) fi).adjustments.getD fj [] = st.adjustments.getD fj []
    ∧ (rerenderFormat (setAdj st fi pi a) fi).canvases.getD fj [] = st.canvases.getD fj []
    ∧ renderOutput (rerenderFormat (setAdj st fi pi a) fi) fj = renderOutput st fj := by
  refine ⟨getD_set_ne _ fi fj _ _ (Ne.symm hne), getD_set_ne _ fi fj _ _ (Ne.symm hne), ?_⟩
  exact renderOutput_congr st _ fj rfl rfl rfl rfl (getD_set_ne _ fi fj _ _ (Ne.symm hne))

/-- C2: mutating one format's adjustment (zoom slider, per-panel reset, or a
drag move whose captured context targets that format) leaves every other
format's adjustment row, its last rendered canvas, and what a re-render of
it would produce unchanged. -/
theorem adjustment_mutation_isolated (st : AppState) (fi pi fj : ℕ)
    (v clientX clientY displayW : ℚ) (hne : fj ≠ fi)
    (hdrag : ∀ dr, st.drag = some dr → dr.formatIndex = fi) :
    ((sliderInput st fi pi v).adjustments.getD fj [] = st.adjustments.getD fj []
      ∧ (sliderInput st fi pi v).canvases.getD fj [] = st.canvases.getD fj []
      ∧ renderOutput (sliderInput st fi pi v) fj = renderOutput st fj)
    ∧ ((resetAdj st fi pi).adjustments.getD fj [] = st.adjustments.getD fj []
      ∧ (resetAdj st fi pi).canvases.getD fj [] = st.canvases.getD fj []
      ∧ renderOutput (resetAdj st fi pi) fj = renderOutput st fj)
    ∧ ((mousemove st clientX clientY displayW).adjustments.getD fj [] = st.adjustments.getD fj []
      ∧ (mousemove st clientX clientY displayW).canvases.getD fj [] = st.canvases.getD fj []
      ∧ renderOutput (mousemove st clientX clientY displayW) fj = renderOutput st fj) := by
  refine ⟨mutate_isolated st fi pi fj _ hne, mutate_isolated st fi pi fj _ hne, ?_⟩
  rcases hd : st.drag with _ | dr
  · have hmm : mousemove st clientX clientY displayW = st := by
      unfold mousemove
      rw [hd]
    rw [hmm]
    exact ⟨rfl, rfl, rfl⟩
  · have hfidx := hdrag dr hd
    have hmm : mousemove st clientX clientY displayW
        = rerenderFormat (setAdj st dr.formatIndex dr.panelIndex
            { getAdj st dr.formatIndex dr.panelIndex with
              panX := dr.startPanX + (clientX - dr.startMouseX) * ((dr.formatWidth : ℚ) / displayW),
              panY := dr.startPanY + (clientY - dr.startMouseY) * ((dr.formatWidth : ℚ) / displayW) })
          dr.formatIndex := by
      unfold mousemove
      rw [hd]
    rw [hmm, hfidx]
    exact mutate_isolated st fi dr.panelIndex fj _ hne

/-- C8: during a drag, the pointer delta in display space is scaled by
`formatWidth / displayedWidth` and added to the pan captured at drag start;
the stored pan is exactly this affine formula — no clamping — and the scale
component is untouched. -/
theorem mousemove_pan_unclamped (st : AppState) (dr : Drag) (clientX clientY displayW : ℚ)
    (hd : st.drag = some dr)
    (hfi : dr.formatIndex < st.adjustments.length)
    (hpi : dr.panelIndex < (st.adjustments.getD dr.formatIndex []).length) :
    getAdj (mousemove st clientX clientY displayW) dr.formatIndex dr.panelIndex
      = { panX := dr.startPanX + (clientX - dr.startMouseX) * ((dr.formatWidth : ℚ) / displayW),
          panY := dr.startPanY + (clientY - dr.startMouseY) * ((dr.formatWidth : ℚ) / displayW),
          scale := (getAdj st dr.formatIndex dr.panelIndex).scale } := by
  have hmm : mousemove st clientX clientY displayW
      = rerenderFormat (setAdj st dr.formatIndex dr.panelIndex
          { getAdj st dr.formatIndex dr.panelIndex with
            panX := dr.startPanX + (clientX - dr.startMouseX) * ((dr.formatWidth : ℚ) / displayW),
            panY := dr.startPanY + (clientY - dr.startMouseY) * ((dr.formatWidth : ℚ) / displayW) })
        dr.formatIndex := by
    unfold mousemove
    rw [hd]
  rw [hmm]
  unfold getAdj rerenderFormat
  dsimp only
  rw [setAdj_adjustments, getD_set_eq _ _ _ _ hfi, getD_set_eq _ _ _ _ hpi]

/-- C10: moving the zoom slider sets the panel's scale to the slider value
and silently zeroes that panel's pan, whatever it was; other panels of the
format and other formats are untouched, and only this format's canvas is
replaced, re-rendered from the updated adjustments. -/
theorem slider_resets_pan (st : AppState) (fi pi pj fj : ℕ) (v : ℚ)
    (hfi : fi < st.adjustments.length)
    (hpi : pi < (st.adjustments.getD fi []).length)
    (hpj : pj ≠ pi) (hfj : fj ≠ fi) :
    getAdj (sliderInput st fi pi v) fi pi = { panX := 0, panY := 0, scale := v }
    ∧ getAdj (sliderInput st fi pi v) fi pj = getAdj st fi pj
    ∧ (sliderInput st fi pi v).adjustments.getD fj [] = st.adjustments.getD fj []
    ∧ (sliderInput st fi pi v).canvases.getD fj [] = st.canvases.getD fj []
    ∧ (sliderInput st fi pi v).canvases
        = st.canvases.set fi
            (renderOutput (setAdj st fi pi { panX := 0, panY := 0, scale := v }) fi) := by
  refine ⟨?_, ?_, ?_, ?_, rfl⟩
  · unfold sliderInput getAdj rerenderFormat
    dsimp only
    rw [setAdj_adjustments, getD_set_eq _ _ _ _ hfi, getD_set_eq _ _ _ _ hpi]
  · unfold sliderInput getAdj rerenderFormat
    dsimp only
    rw [setAdj_adjustments, getD_set_eq _ _ _ _ hfi, getD_set_ne _ _ _ _ _ (Ne.symm hpj)]
  · exact (mutate_isolated st fi pi fj _ hfj).1
  · exact (mutate_isolated st fi pi fj _ hfj).2.1

/-- C9: the per-panel Reset restores exactly `{panX: 0, panY: 0, scale: 1}`
and re-rendering that format reproduces, for that panel, the geometry
produced from the freshly initialized default adjustments; only that
format's canvas is replaced. -/
theorem reset_restores_auto_frame (st : AppState) (fi pi : ℕ) (fmt : OutputFormat)
    (hfmt : OUTPUT_FORMATS.get? fi = some fmt)
    (hcv : fi < st.canvases.length) :
    getAdj (resetAdj st fi pi) fi pi = defaultAdjustment
    ∧ ((resetAdj st fi pi).canvases.getD fi []).get? pi
        = (renderForFormat fmt st.photoCount st.focalPoints st.imageSizes st.targetFocalY
            ((initAdjustments st.photoCount).getD fi [])).get? pi
    ∧ ∀ fj, fj ≠ fi → (resetAdj st fi pi).canvases.getD fj [] = st.canvases.getD fj [] := by
  have hfmtlt : fi < OUTPUT_FORMATS.length := by
    by_contra hlt
    rw [get?_len_le _ _ (le_of_not_lt hlt)] at hfmt
    exact Option.noConfusion hfmt
  refine ⟨?_, ?_, ?_⟩
  · exact setAdj_row_getD_self st fi pi ⟨0, 0, 1⟩
  · show ((st.canvases.set fi (renderOutput (setAdj st fi pi ⟨0, 0, 1⟩) fi)).getD fi []).get? pi
        = _
    rw [getD_set_eq _ _ _ _ hcv]
    have h1 : renderOutput (setAdj st fi pi ⟨0, 0, 1⟩) fi
        = renderForFormat fmt st.photoCount st.focalPoints st.imageSizes st.targetFocalY
            ((setAdj st fi pi ⟨0, 0, 1⟩).adjustments.getD fi []) := by
      unfold renderOutput
      rw [hfmt]
      rfl
    rw [h1]
    unfold renderForFormat
    rw [initAdjustments_getD st.photoCount fi hfmtlt]
    apply renderLoop_get?_congr
    rw [Nat.zero_add, getD_replicate]
    exact setAdj_row_getD_self st fi pi ⟨0, 0, 1⟩
  · intro fj hfj
    exact getD_set_ne _ fi fj _ _ (Ne.symm hfj)

/-- C7: the drag hit-test and the renderer agree on panel boundaries: for
every display-space press coordinate, `getPanelIndex` returns `i` exactly
when the converted canvas-space coordinate falls inside the rectangle
`renderForFormat` paints panel `i` into; it returns -1 exactly when the
coordinate lies on a divider or outside every panel, and then `mousedown`
starts no drag and leaves the state unchanged. -/
theorem getPanelIndex_agrees_render (st : AppState) (fi : ℕ) (fmt : OutputFormat)
    (clientX clientY rectLeft displayW : ℚ) (i : ℕ) (p : PanelRender)
    (hfmt : OUTPUT_FORMATS.get? fi = some fmt)
    (hi : i < st.photoCount)
    (hp : (renderOutput st fi).get? i = some p) :
    (getPanelIndex (clientX - rectLeft) displayW fmt.width st.photoCount = (i : ℤ) ↔
        ((p.x : ℚ) ≤ (clientX - rectLeft) * ((fmt.width : ℚ) / displayW)
          ∧ (clientX - rectLeft) * ((fmt.width : ℚ) / displayW) < (p.x : ℚ) + (p.w : ℚ)))
    ∧ (getPanelIndex (clientX - rectLeft) displayW fmt.width st.photoCount = -1 ↔
        ∀ (j : ℕ) (q : PanelRender), (renderOutput st fi).get? j = some q →
          ¬ ((q.x : ℚ) ≤ (clientX - rectLeft) * ((fmt.width : ℚ) / displayW)
            ∧ (clientX - rectLeft) * ((fmt.width : ℚ) / displayW) < (q.x : ℚ) + (q.w : ℚ)))
    ∧ (getPanelIndex (clientX - rectLeft) displayW fmt.width st.photoCount = -1 →
        mousedown st fi clientX clientY rectLeft displayW = st) := by
  have hpc := renderOutput_get? st fi fmt hfmt i hi
  rw [hp] at hpc
  have hpeq := Option.some.inj hpc
  subst hpeq
  have hsd : (0 : ℚ) ≤ ((DIVIDER_width : ℕ) : ℚ) := Nat.cast_nonneg _
  refine ⟨⟨?_, ?_⟩, ⟨?_, ?_⟩, ?_⟩
  · intro hscan
    rw [getPanelIndex_eq] at hscan
    rcases panelScan_cases ((clientX - rectLeft) * ((fmt.width : ℚ) / displayW))
        ((slotWidth fmt.width DIVIDER_width st.photoCount : ℕ) : ℚ)
        ((DIVIDER_width : ℕ) : ℚ) st.photoCount 0 0 with hm | ⟨k, hk, heq, hb1, hb2⟩
    · rw [hm] at hscan
      exfalso
      omega
    · rw [heq] at hscan
      have hki : k = i := by omega
      subst hki
      constructor
      · dsimp only
        push_cast
        linarith [hb1]
      · dsimp only
        push_cast
        linarith [hb2]
  · rintro ⟨h1, h2⟩
    rw [getPanelIndex_eq]
    have hhit := panelScan_hit ((clientX - rectLeft) * ((fmt.width : ℚ) / displayW))
        ((slotWidth fmt.width DIVIDER_width st.photoCount : ℕ) : ℚ)
        ((DIVIDER_width : ℕ) : ℚ) hsd st.photoCount i 0 0 hi ?_ ?_
    · rw [hhit]
      norm_num
    · dsimp only at h1
      push_cast at h1 ⊢
      linarith
    · dsimp only at h2
      push_cast at h2 ⊢
      linarith
  · intro hm j q hq hcont
    by_cases hj : j < st.photoCount
    · have hqc := renderOutput_get? st fi fmt hfmt j hj
      rw [hq] at hqc
      have hqe := Option.some.inj hqc
      subst hqe
      rw [getPanelIndex_eq] at hm
      have hhit := panelScan_hit ((clientX - rectLeft) * ((fmt.width : ℚ) / displayW))
          ((slotWidth fmt.width DIVIDER_width st.photoCount : ℕ) : ℚ)
          ((DIVIDER_width : ℕ) : ℚ) hsd st.photoCount j 0 0 hj ?_ ?_
      · rw [hm] at hhit
        omega
      · dsimp only at hcont
        push_cast at hcont ⊢
        linarith [hcont.1]
      · dsimp only at hcont
        push_cast at hcont ⊢
        linarith [hcont.2]
    · have hnone := renderOutput_get?_none st fi fmt hfmt j (le_of_not_lt hj)
      rw [hq] at hnone
      exact Option.noConfusion hnone
  · intro hall
    rw [getPanelIndex_eq]
    apply panelScan_miss
    intro k hk hcont
    have hqc := renderOutput_get? st fi fmt hfmt k hk
    refine hall k _ hqc ⟨?_, ?_⟩
    · dsimp only
      push_cast
      linarith [hcont.1]
    · dsimp only
      push_cast
      linarith [hcont.2]
  · intro hm
    cases hcomp : st.composited with
    | false =>
        unfold mousedown
        rw [hcomp]
        simp
    | true =>
        have hc : ¬ (st.composited = false) := by simp [hcomp]
        have hstep : mousedown st fi clientX clientY rectLeft displayW
            = (if getPanelIndex (clientX - rectLeft) displayW fmt.width st.photoCount < 0
               then st
               else { st with drag := some (Drag.mk fi fmt.width
                      (getPanelIndex (clientX - rectLeft) displayW fmt.width st.photoCount).toNat
                      clientX clientY
                      (getAdj st fi (getPanelIndex (clientX - rectLeft) displayW fmt.width
                        st.photoCount).toNat).panX
                      (getAdj st fi (getPanelIndex (clientX - rectLeft) displayW fmt.width
                        st.photoCount).toNat).panY) }) := by
          unfold mousedown
          rw [if_neg hc, hfmt]
        rw [hstep, if_pos (by rw [hm]; norm_num)]

/-- Witness for C2: a zoom change on format 0 leaves format 1's adjustment
row, canvas and render output untouched. -/
theorem adjustment_mutation_isolated_witness :
    (sliderInput sampleIsolationState 0 0 (2 : ℚ)).adjustments.getD 1 []
        = sampleIsolationState.adjustments.getD 1 []
    ∧ (sliderInput sampleIsolationState 0 0 (2 : ℚ)).canvases.getD 1 []
        = sampleIsolationState.canvases.getD 1 []
    ∧ renderOutput (sliderInput sampleIsolationState 0 0 (2 : ℚ)) 1
        = renderOutput sampleIsolationState 1 :=
  (adjustment_mutation_isolated sampleIsolationState 0 0 1 2 50 0 1000 (by decide)
    (by intro dr hd; injection hd with h2; exact h2 ▸ rfl)).1

/-- Witness for C7: a press at display x = 600 on a 2000-wide format shown at
1000 px lands at canvas x = 1200, inside panel 1's rectangle. -/
theorem getPanelIndex_agrees_render_witness :
    getPanelIndex ((800 : ℚ) - 200) 1000 2000 2 = ((1 : ℕ) : ℤ) ↔
      (((1 * (slotWidth 2000 DIVIDER_width 2 + DIVIDER_width) : ℕ) : ℚ)
          ≤ ((800 : ℚ) - 200) * (((2000 : ℕ) : ℚ) / 1000)
        ∧ ((800 : ℚ) - 200) * (((2000 : ℕ) : ℚ) / 1000)
          < ((1 * (slotWidth 2000 DIVIDER_width 2 + DIVIDER_width) : ℕ) : ℚ)
            + ((slotWidth 2000 DIVIDER_width 2 : ℕ) : ℚ)) :=
  (getPanelIndex_agrees_render sampleHitState 0 fmt2x1 800 0 200 1000 1 _ rfl (by decide)
    (renderOutput_get? sampleHitState 0 fmt2x1 rfl 1 (by decide))).1

/-- Witness for C8: a 50-display-pixel drag on a canvas displayed at half its
2000-pixel logical width stores a 100-pixel logical pan delta, unclamped. -/
theorem mousemove_pan_unclamped_witness :
    getAdj (mousemove sampleDragState 50 0 1000) 0 0
      = { panX := 7 + ((50 : ℚ) - 0) * (((2000 : ℕ) : ℚ) / 1000),
          panY := 3 + ((0 : ℚ) - 0) * (((2000 : ℕ) : ℚ) / 1000),
          scale := (getAdj sampleDragState 0 0).scale } :=
  mousemove_pan_unclamped sampleDragState ⟨0, 2000, 0, 0, 0, 7, 3⟩ 50 0 1000 rfl
    (by decide) (by decide)

/-- Witness for C9: resetting the panned-and-zoomed panel restores the
default adjustment and re-renders its panel exactly as a fresh composition
would. -/
theorem reset_restores_auto_frame_witness :
    getAdj (resetAdj sampleResetState 0 0) 0 0 = defaultAdjustment
    ∧ ((resetAdj sampleResetState 0 0).canvases.getD 0 []).get? 0
        = (renderForFormat fmt2x1 1 [⟨1/2, 1/3, true⟩] [⟨4, 5⟩] (1/2)
            ((initAdjustments 1).getD 0 [])).get? 0 :=
  ⟨(reset_restores_auto_frame sampleResetState 0 0 fmt2x1 rfl (by decide)).1,
   (reset_restores_auto_frame sampleResetState 0 0 fmt2x1 rfl (by decide)).2.1⟩

/-- Witness for C10: the zoom slider wipes the stored pan (5, 6) while
setting scale 2, leaving the other panel and the other format unchanged. -/
theorem slider_resets_pan_witness :
    getAdj (sliderInput sampleSliderState 0 0 2) 0 0
        = { panX := 0, panY := 0, scale := (2 : ℚ) }
    ∧ getAdj (sliderInput sampleSliderState 0 0 2) 0 1 = getAdj sampleSliderState 0 1
    ∧ (sliderInput sampleSliderState 0 0 2).adjustments.getD 1 []
        = sampleSliderState.adjustments.getD 1 []
    ∧ (sliderInput sampleSliderState 0 0 2).canvases.getD 1 []
        = sampleSliderState.canvases.getD 1 [] :=
  ⟨(slider_resets_pan sampleSliderState 0 0 1 1 2 (by decide) (by decide) (by decide)
      (by decide)).1,
   (slider_resets_pan sampleSliderState 0 0 1 1 2 (by decide) (by decide) (by decide)
      (by decide)).2.1,
   (slider_resets_pan sampleSliderState 0 0 1 1 2 (by decide) (by decide) (by decide)
      (by decide)).2.2.1,
   (slider_resets_pan sampleSliderState 0 0 1 1 2 (by decide) (by decide) (by decide)
      (by decide)).2.2.2.1⟩
